import Mathlib

/-!
Verification of the ThemisAI orchestration core against its specification.

The definitions below are a shallow embedding of the Python sources:

* `app/models/app_analysis.py`   — `AndroguardAnalysis`, `ThemisAIReport`
* `app/domain/analysis_domain.py`— `AnalysisDomain.perform_analysis`
* `app/services/opensearch_service.py` — `index_docs`, `search_hybrid_slim`
* `app/services/llama_service.py` — `_build_command`, `generate_response`,
  `generate_response_async`
* `app/routes/app_analysis.py`   — `get_analysis_domain`

External collaborators (Redis, OpenSearch, the embedding model, the llama.cpp
subprocess) are modelled as oracle functions supplied to the embedded code;
side effects are recorded as explicit event traces.  Machine integers do not
occur in the Python sources except inside SHA-256, which is embedded over
`Nat` with explicit reduction modulo `2 ^ 32`.  Python `float` appears only as
the `score` field of the report and as RRF scores; no claim exercises
floating-point rounding, so those values are modelled as exact rationals.
-/

set_option maxRecDepth 4000

/-! ## Data model (`app/models/app_analysis.py`) -/

/-- Input model `AndroguardAnalysis`: package identifier, ordered permission
list, raw log excerpt. -/
structure AndroguardAnalysis where
  package_name : String
  permissions_list : List String
  dalvik_analysis_log : String
deriving DecidableEq

/-- Output model `ThemisAIReport`.  Every field is required.  The Python
`score: float` is modelled as an exact rational (no claim exercises
floating-point rounding). -/
structure ThemisAIReport where
  package_name : String
  score : ℚ
  summary : String
  vulnerability_name : String
  severity_level : String
  mitigation_actions : List String
deriving DecidableEq

/-! ## Canonical serialization (`req.model_dump_json()`)

Pydantic v2 `model_dump_json()` serializes the model with `serde_json`:
compact (no spaces), fields in declaration order, strings escaped with
`\"`, `\\`, the short escapes `\b \t \n \f \r`, and `\u00XX` (lower-case
hex) for the remaining control characters below `0x20`; characters at or
above `0x20` are emitted verbatim. -/

/-- Lower-case hexadecimal digit for a nibble. -/
def hexDigitLower (n : Nat) : Char :=
  if n < 10 then Char.ofNat (48 + n) else Char.ofNat (87 + n)

/-- Escape of a single character inside a JSON string literal, following
`serde_json` (the serializer used by pydantic v2). -/
def escChar (c : Char) : List Char :=
  if c = '"' then ['\\', '"']
  else if c = '\\' then ['\\', '\\']
  else if c.toNat < 32 then
    if c.toNat = 8 then ['\\', 'b']
    else if c.toNat = 9 then ['\\', 't']
    else if c.toNat = 10 then ['\\', 'n']
    else if c.toNat = 12 then ['\\', 'f']
    else if c.toNat = 13 then ['\\', 'r']
    else ['\\', 'u', '0', '0', hexDigitLower (c.toNat / 16), hexDigitLower (c.toNat % 16)]
  else [c]

/-- Escaped body of a JSON string literal (no surrounding quotes). -/
def escBody (s : String) : List Char :=
  (s.data.map escChar).flatten

/-- A JSON string literal: quote, escaped body, quote. -/
def serializeStr (s : String) : List Char :=
  '"' :: escBody s ++ ['"']

/-- Comma-separated JSON string literals (the items of a JSON array). -/
def dumpItems : List String → List Char
  | [] => []
  | [s] => serializeStr s
  | s :: rest => serializeStr s ++ ',' :: dumpItems rest

/-- Compact JSON array of string literals. -/
def dumpStrList (l : List String) : List Char :=
  '[' :: dumpItems l ++ [']']

/-- Characters of `req.model_dump_json()`: the compact canonical JSON
serialization of an `AndroguardAnalysis`, fields in declaration order. -/
def dumpReqChars (r : AndroguardAnalysis) : List Char :=
  "\x7b\"package_name\":".data ++ serializeStr r.package_name
    ++ ",\"permissions_list\":".data ++ dumpStrList r.permissions_list
    ++ ",\"dalvik_analysis_log\":".data ++ serializeStr r.dalvik_analysis_log
    ++ "\x7d".data

/-- Embedding of `req.model_dump_json()`. -/
def model_dump_json (r : AndroguardAnalysis) : String :=
  String.mk (dumpReqChars r)

/-! ### A decoder for the canonical serialization

The decoder below is a left inverse of `model_dump_json`; the round-trip
theorem makes the serialization injective, which is what claim C2's
"different fields give different keys up to hash collision" needs. -/

/-- Numeric value of a hexadecimal digit, if any. -/
def hexVal (c : Char) : Option Nat :=
  if 48 ≤ c.toNat ∧ c.toNat ≤ 57 then some (c.toNat - 48)
  else if 97 ≤ c.toNat ∧ c.toNat ≤ 102 then some (c.toNat - 87)
  else none

/-- Prepend a character to the decoded part of a decoder result. -/
def consFst (c : Char) : Option (List Char × List Char) → Option (List Char × List Char)
  | some (d, rest) => some (c :: d, rest)
  | none => none

/-- Decode the body of a JSON string literal up to and including the closing
quote; return the decoded characters and the remaining input. -/
def unescTail : List Char → Option (List Char × List Char)
  | [] => none
  | c :: r =>
    if c = '"' then some ([], r)
    else if c = '\\' then
      match r with
      | [] => none
      | e :: r' =>
        if e = '"' then consFst '"' (unescTail r')
        else if e = '\\' then consFst '\\' (unescTail r')
        else if e = 'b' then consFst (Char.ofNat 8) (unescTail r')
        else if e = 't' then consFst (Char.ofNat 9) (unescTail r')
        else if e = 'n' then consFst (Char.ofNat 10) (unescTail r')
        else if e = 'f' then consFst (Char.ofNat 12) (unescTail r')
        else if e = 'r' then consFst (Char.ofNat 13) (unescTail r')
        else if e = 'u' then
          match r' with
          | z1 :: z2 :: h1 :: h2 :: r'' =>
            if z1 = '0' ∧ z2 = '0' then
              match hexVal h1, hexVal h2 with
              | some a, some b => consFst (Char.ofNat (16 * a + b)) (unescTail r'')
              | _, _ => none
            else none
          | _ => none
        else none
    else consFst c (unescTail r)

theorem char_ofNat_toNat (c : Char) : Char.ofNat c.toNat = c := by
  have hv : Nat.isValidChar c.toNat := c.valid
  unfold Char.ofNat
  rw [dif_pos hv]
  apply Char.eq_of_val_eq
  show UInt32.mk (BitVec.ofNatLt c.toNat _) = c.val
  apply UInt32.eq_of_toBitVec_eq
  apply BitVec.eq_of_toNat_eq
  simp [Char.toNat, UInt32.toNat, BitVec.ofNatLt]

theorem char_toNat_ofNat (n : Nat) (h : n < 55296) : (Char.ofNat n).toNat = n := by
  have hv : Nat.isValidChar n := Or.inl h
  unfold Char.ofNat
  rw [dif_pos hv]
  simp [Char.toNat, UInt32.toNat, BitVec.ofNatLt, Char.ofNatAux]

theorem hexVal_hexDigitLower (m : Nat) (h : m < 16) :
    hexVal (hexDigitLower m) = some m := by
  unfold hexVal hexDigitLower
  by_cases h10 : m < 10
  · rw [if_pos h10, char_toNat_ofNat (48 + m) (by omega)]
    rw [if_pos (by omega)]
    congr 1
    omega
  · rw [if_neg h10, char_toNat_ofNat (87 + m) (by omega)]
    rw [if_neg (by omega), if_pos (by omega)]
    congr 1
    omega

theorem unescTail_round (s : List Char) (t : List Char) :
    unescTail ((s.map escChar).flatten ++ '"' :: t) = some (s, t) := by
  induction s with
  | nil =>
    rw [List.map_nil, List.flatten_nil, List.nil_append, unescTail.eq_def]
    simp
  | cons c s ih =>
    rw [List.map_cons, List.flatten_cons, List.append_assoc]
    by_cases hq : c = '"'
    · subst hq
      have he : escChar '"' = ['\\', '"'] := rfl
      rw [he, List.cons_append, List.cons_append, unescTail.eq_def]
      simp [consFst, ih]
    · by_cases hb : c = '\\'
      · subst hb
        have he : escChar '\\' = ['\\', '\\'] := rfl
        rw [he, List.cons_append, List.cons_append, unescTail.eq_def]
        simp [consFst, ih]
      · by_cases hc : c.toNat < 32
        · by_cases h8 : c.toNat = 8
          · have he : escChar c = ['\\', 'b'] := by simp [escChar, hq, hb, hc, h8]
            have hch : Char.ofNat 8 = c := by rw [← h8, char_ofNat_toNat]
            rw [he, List.cons_append, List.cons_append, unescTail.eq_def]
            simp [consFst, ih, hch]
            exact hch
          · by_cases h9 : c.toNat = 9
            · have he : escChar c = ['\\', 't'] := by simp [escChar, hq, hb, hc, h8, h9]
              have hch : Char.ofNat 9 = c := by rw [← h9, char_ofNat_toNat]
              rw [he, List.cons_append, List.cons_append, unescTail.eq_def]
              simp [consFst, ih, hch]
              exact hch
            · by_cases h10 : c.toNat = 10
              · have he : escChar c = ['\\', 'n'] := by
                  simp [escChar, hq, hb, hc, h8, h9, h10]
                have hch : Char.ofNat 10 = c := by rw [← h10, char_ofNat_toNat]
                rw [he, List.cons_append, List.cons_append, unescTail.eq_def]
                simp [consFst, ih, hch]
                exact hch
              · by_cases h12 : c.toNat = 12
                · have he : escChar c = ['\\', 'f'] := by
                    simp [escChar, hq, hb, hc, h8, h9, h10, h12]
                  have hch : Char.ofNat 12 = c := by rw [← h12, char_ofNat_toNat]
                  rw [he, List.cons_append, List.cons_append, unescTail.eq_def]
                  simp [consFst, ih, hch]
                  exact hch
                · by_cases h13 : c.toNat = 13
                  · have he : escChar c = ['\\', 'r'] := by
                      simp [escChar, hq, hb, hc, h8, h9, h10, h12, h13]
                    have hch : Char.ofNat 13 = c := by rw [← h13, char_ofNat_toNat]
                    rw [he, List.cons_append, List.cons_append, unescTail.eq_def]
                    simp [consFst, ih, hch]
                    exact hch
                  · have he : escChar c =
                        ['\\', 'u', '0', '0', hexDigitLower (c.toNat / 16),
                          hexDigitLower (c.toNat % 16)] := by
                      simp [escChar, hq, hb, hc, h8, h9, h10, h12, h13]
                    have hch : Char.ofNat (16 * (c.toNat / 16) + c.toNat % 16) = c := by
                      rw [Nat.div_add_mod c.toNat 16, char_ofNat_toNat]
                    rw [he]
                    simp only [List.cons_append]
                    rw [unescTail.eq_def]
                    simp [consFst, ih, hch,
                      hexVal_hexDigitLower (c.toNat / 16) (by omega),
                      hexVal_hexDigitLower (c.toNat % 16) (by omega)]
        · have he : escChar c = [c] := by simp [escChar, hq, hb, hc]
          rw [he, List.cons_append, List.nil_append, unescTail.eq_def]
          simp [hq, hb, consFst, ih]

/-- Consume an expected literal pattern from the input. -/
def expectLit : List Char → List Char → Option (List Char)
  | [], input => some input
  | _ :: _, [] => none
  | p :: ps, c :: cs => if c = p then expectLit ps cs else none

theorem expectLit_append (pat rest : List Char) :
    expectLit pat (pat ++ rest) = some rest := by
  induction pat with
  | nil => rfl
  | cons p ps ih => simp [expectLit, ih]

/-- Parse the items of a non-empty JSON string array after the opening
bracket, consuming the closing bracket. -/
def parseItems : Nat → List Char → Option (List String × List Char)
  | fuel, input =>
    match input with
    | '"' :: r =>
      match unescTail r with
      | none => none
      | some (s, r') =>
        match r' with
        | ',' :: r'' =>
          match fuel with
          | 0 => none
          | f + 1 =>
            match parseItems f r'' with
            | some (ss, rest) => some (String.mk s :: ss, rest)
            | none => none
        | ']' :: r'' => some ([String.mk s], r'')
        | _ => none
    | _ => none

/-- Parse a JSON string array after the opening bracket (empty or not),
consuming the closing bracket. -/
def parsePermList (fuel : Nat) (input : List Char) : Option (List String × List Char) :=
  match input with
  | ']' :: r => some ([], r)
  | _ => parseItems fuel input

/-- Decoder for the canonical serialization of `AndroguardAnalysis`. -/
def parseReq (input : List Char) : Option AndroguardAnalysis :=
  match expectLit "\x7b\"package_name\":\"".data input with
  | none => none
  | some r1 =>
    match unescTail r1 with
    | none => none
    | some (p, r2) =>
      match expectLit ",\"permissions_list\":[".data r2 with
      | none => none
      | some r3 =>
        match parsePermList r3.length r3 with
        | none => none
        | some (perms, r4) =>
          match expectLit ",\"dalvik_analysis_log\":\"".data r4 with
          | none => none
          | some r5 =>
            match unescTail r5 with
            | none => none
            | some (d, r6) =>
              match r6 with
              | ['\x7d'] => some ⟨String.mk p, perms, String.mk d⟩
              | _ => none

theorem string_mk_data (s : String) : String.mk s.data = s := by
  cases s
  rfl

theorem parseItems_round (l : List String) (s0 : String) (rest : List Char) (fuel : Nat)
    (hf : l.length ≤ fuel) :
    parseItems fuel (dumpItems (s0 :: l) ++ (']' :: rest)) = some (s0 :: l, rest) := by
  induction l generalizing s0 fuel with
  | nil =>
    have hform : dumpItems [s0] ++ (']' :: rest)
        = '"' :: ((s0.data.map escChar).flatten ++ '"' :: (']' :: rest)) := by
      simp [dumpItems, serializeStr, escBody]
    rw [hform, parseItems.eq_def]
    simp [unescTail_round, string_mk_data]
  | cons s1 l ih =>
    obtain ⟨f, rfl⟩ : ∃ f, fuel = f + 1 := ⟨fuel - 1, by simp at hf; omega⟩
    have hform : dumpItems (s0 :: s1 :: l) ++ (']' :: rest)
        = '"' :: ((s0.data.map escChar).flatten
            ++ '"' :: (',' :: (dumpItems (s1 :: l) ++ (']' :: rest)))) := by
      simp [dumpItems, serializeStr, escBody]
    rw [hform, parseItems.eq_def]
    simp only [unescTail_round]
    simp [ih s1 f (by simp at hf; omega), string_mk_data]

theorem parsePermList_round (l : List String) (rest : List Char) (fuel : Nat)
    (hf : l.length ≤ fuel) :
    parsePermList fuel (dumpItems l ++ (']' :: rest)) = some (l, rest) := by
  cases l with
  | nil => simp [dumpItems, parsePermList]
  | cons s0 l =>
    have hhead : ∀ Y, parsePermList fuel ('"' :: Y) = parseItems fuel ('"' :: Y) := by
      intro Y
      rfl
    have hne : parsePermList fuel (dumpItems (s0 :: l) ++ (']' :: rest))
        = parseItems fuel (dumpItems (s0 :: l) ++ (']' :: rest)) := by
      cases l with
      | nil =>
        have hform : dumpItems [s0] ++ (']' :: rest)
            = '"' :: (escBody s0 ++ ['"'] ++ (']' :: rest)) := by
          simp [dumpItems, serializeStr]
        rw [hform, hhead]
      | cons s1 l2 =>
        have hform : dumpItems (s0 :: s1 :: l2) ++ (']' :: rest)
            = '"' :: (escBody s0 ++ ['"'] ++ ',' :: dumpItems (s1 :: l2) ++ (']' :: rest)) := by
          simp [dumpItems, serializeStr]
        rw [hform, hhead]
    rw [hne, parseItems_round l s0 rest fuel (by simp at hf; omega)]

theorem dumpItems_length (l : List String) : l.length ≤ (dumpItems l).length := by
  induction l with
  | nil => simp [dumpItems]
  | cons s l ih =>
    cases l with
    | nil => simp [dumpItems, serializeStr]
    | cons s1 l2 =>
      have h : dumpItems (s :: s1 :: l2) = serializeStr s ++ ',' :: dumpItems (s1 :: l2) := by
        simp [dumpItems]
      rw [h]
      simp only [List.length_append, List.length_cons, serializeStr]
      simp at ih ⊢
      omega

theorem parseReq_round (r : AndroguardAnalysis) :
    parseReq (dumpReqChars r) = some r := by
  obtain ⟨pn, perms, log⟩ := r
  have h1 : "\x7b\"package_name\":\"".data = "\x7b\"package_name\":".data ++ ['"'] := rfl
  have h2 : ",\"permissions_list\":[".data = ",\"permissions_list\":".data ++ ['['] := rfl
  have h3 : ",\"dalvik_analysis_log\":\"".data = ",\"dalvik_analysis_log\":".data ++ ['"'] := rfl
  have hform : dumpReqChars ⟨pn, perms, log⟩
      = "\x7b\"package_name\":\"".data
        ++ ((pn.data.map escChar).flatten
        ++ '"' :: (",\"permissions_list\":[".data
        ++ (dumpItems perms
        ++ (']' :: (",\"dalvik_analysis_log\":\"".data
        ++ ((log.data.map escChar).flatten
        ++ '"' :: ['\x7d'])))))) := by
    simp [dumpReqChars, serializeStr, dumpStrList, escBody, h1, h2, h3]
  have hfuel : perms.length ≤ (dumpItems perms
      ++ (']' :: (",\"dalvik_analysis_log\":\"".data
      ++ ((log.data.map escChar).flatten ++ '"' :: ['\x7d'])))).length := by
    have := dumpItems_length perms
    simp only [List.length_append, List.length_cons]
    omega
  have hperm := parsePermList_round perms
    (",\"dalvik_analysis_log\":\"".data ++ ((log.data.map escChar).flatten ++ '"' :: ['\x7d']))
    (dumpItems perms
      ++ (']' :: (",\"dalvik_analysis_log\":\"".data
      ++ ((log.data.map escChar).flatten ++ '"' :: ['\x7d'])))).length hfuel
  rw [hform, parseReq]
  rw [expectLit_append]
  simp only [unescTail_round]
  rw [expectLit_append]
  simp only [hperm]
  rw [expectLit_append]
  simp only [unescTail_round]

/-- Injectivity of the canonical serialization: distinct requests have
distinct `model_dump_json` outputs. -/
theorem model_dump_json_inj (r1 r2 : AndroguardAnalysis)
    (h : model_dump_json r1 = model_dump_json r2) : r1 = r2 := by
  have hd : dumpReqChars r1 = dumpReqChars r2 := congrArg String.data h
  have := parseReq_round r1
  rw [hd, parseReq_round r2] at this
  exact (Option.some.injEq _ _).mp this.symm

/-! ## SHA-256 (`hashlib.sha256(...).hexdigest()` on the UTF-8 request bytes)

A direct embedding of SHA-256 over `Nat` byte lists, with 32-bit words kept
reduced modulo `2 ^ 32`.  The claims only use that the digest is a
deterministic function producing a fixed-length (64-character) lower-case hex
string, but the construction is embedded in full. -/

/-- Reduce a word modulo `2 ^ 32`. -/
def w32 (x : Nat) : Nat := x % 4294967296

/-- Right rotation of a 32-bit word. -/
def rotr32 (n x : Nat) : Nat := w32 ((x >>> n) + w32 (x <<< (32 - n)))

/-- Bitwise complement of a 32-bit word. -/
def not32 (x : Nat) : Nat := 4294967295 - x

/-- SHA-256 round constants (fractional parts of cube roots of the first 64
primes). -/
def sha256K : List Nat := [
  1116352408, 1899447441, 3049323471, 3921009573,
  961987163, 1508970993, 2453635748, 2870763221,
  3624381080, 310598401, 607225278, 1426881987,
  1925078388, 2162078206, 2614888103, 3248222580,
  3835390401, 4022224774, 264347078, 604807628,
  770255983, 1249150122, 1555081692, 1996064986,
  2554220882, 2821834349, 2952996808, 3210313671,
  3336571891, 3584528711, 113926993, 338241895,
  666307205, 773529912, 1294757372, 1396182291,
  1695183700, 1986661051, 2177026350, 2456956037,
  2730485921, 2820302411, 3259730800, 3345764771,
  3516065817, 3600352804, 4094571909, 275423344,
  430227734, 506948616, 659060556, 883997877,
  958139571, 1322822218, 1537002063, 1747873779,
  1955562222, 2024104815, 2227730452, 2361852424,
  2428436474, 2756734187, 3204031479, 3329325298]

/-- Working state: eight 32-bit words. -/
structure Hash8 where
  w0 : Nat
  w1 : Nat
  w2 : Nat
  w3 : Nat
  w4 : Nat
  w5 : Nat
  w6 : Nat
  w7 : Nat

/-- SHA-256 initial hash value (fractional parts of square roots of the first
8 primes). -/
def sha256H0 : Hash8 :=
  ⟨1779033703, 3144134277, 1013904242, 2773480762,
   1359893119, 2600822924, 528734635, 1541459225⟩

/-- Message padding: append `0x80`, zero bytes to 56 mod 64, and the 8-byte
big-endian bit length. -/
def sha256Pad (msg : List Nat) : List Nat :=
  let len := msg.length
  let zeros := (120 - (len + 1) % 64) % 64
  msg ++ 128 :: List.replicate zeros 0
    ++ (List.range 8).map (fun i => (8 * len) >>> (8 * (7 - i)) % 256 % 256)

/-- Split a byte list into 64-byte blocks. -/
def toBlocks (l : List Nat) : List (List Nat) :=
  if l.isEmpty then []
  else l.take 64 :: toBlocks (l.drop 64)
termination_by l.length
decreasing_by
  rename_i h
  simp [List.isEmpty_iff] at h
  simp [List.length_drop]
  cases l with
  | nil => exact absurd rfl h
  | cons a l2 => simp

/-- The 16 initial message-schedule words of a 64-byte block (big-endian). -/
def blockWords (b : List Nat) : List Nat :=
  (List.range 16).map (fun i =>
    b.getD (4 * i) 0 * 16777216 + b.getD (4 * i + 1) 0 * 65536
      + b.getD (4 * i + 2) 0 * 256 + b.getD (4 * i + 3) 0)

/-- Extend the message schedule by `fuel` additional words. -/
def extendSchedule : Nat → List Nat → List Nat
  | 0, acc => acc
  | f + 1, acc =>
    let n := acc.length
    let x15 := acc.getD (n - 15) 0
    let x2 := acc.getD (n - 2) 0
    let s0 := rotr32 7 x15 ^^^ rotr32 18 x15 ^^^ (x15 >>> 3)
    let s1 := rotr32 17 x2 ^^^ rotr32 19 x2 ^^^ (x2 >>> 10)
    extendSchedule f (acc ++ [w32 (acc.getD (n - 16) 0 + s0 + acc.getD (n - 7) 0 + s1)])

/-- One SHA-256 round. -/
def sha256Round (s : Hash8) (kw : Nat × Nat) : Hash8 :=
  let e := s.w4
  let bigS1 := rotr32 6 e ^^^ rotr32 11 e ^^^ rotr32 25 e
  let ch := (e &&& s.w5) ^^^ (not32 e &&& s.w6)
  let t1 := w32 (s.w7 + bigS1 + ch + kw.1 + kw.2)
  let a := s.w0
  let bigS0 := rotr32 2 a ^^^ rotr32 13 a ^^^ rotr32 22 a
  let maj := (a &&& s.w1) ^^^ (a &&& s.w2) ^^^ (s.w1 &&& s.w2)
  let t2 := w32 (bigS0 + maj)
  ⟨w32 (t1 + t2), a, s.w1, s.w2, w32 (s.w3 + t1), e, s.w5, s.w6⟩

/-- Compress one 64-byte block into the running hash state. -/
def sha256Compress (h : Hash8) (block : List Nat) : Hash8 :=
  let ws := extendSchedule 48 (blockWords block)
  let f := (sha256K.zip ws).foldl sha256Round h
  ⟨w32 (h.w0 + f.w0), w32 (h.w1 + f.w1), w32 (h.w2 + f.w2), w32 (h.w3 + f.w3),
   w32 (h.w4 + f.w4), w32 (h.w5 + f.w5), w32 (h.w6 + f.w6), w32 (h.w7 + f.w7)⟩

/-- SHA-256 of a byte list, as the final eight words. -/
def sha256Words (msg : List Nat) : Hash8 :=
  (toBlocks (sha256Pad msg)).foldl sha256Compress sha256H0

/-- Lower-case big-endian hex rendering of a 32-bit word (8 digits). -/
def hexWordChars (w : Nat) : List Char :=
  (List.range 8).map (fun i => hexDigitLower (w / 16 ^ (7 - i) % 16))

/-- Embedding of `hashlib.sha256(msg).hexdigest()`. -/
def sha256_hexdigest (msg : List Nat) : String :=
  let hs := sha256Words msg
  String.mk (hexWordChars hs.w0 ++ hexWordChars hs.w1 ++ hexWordChars hs.w2
    ++ hexWordChars hs.w3 ++ hexWordChars hs.w4 ++ hexWordChars hs.w5
    ++ hexWordChars hs.w6 ++ hexWordChars hs.w7)

/-! ## UTF-8 encoding (`str.encode()`) -/

/-- UTF-8 bytes of a single character. -/
def utf8Bytes (c : Char) : List Nat :=
  let n := c.toNat
  if n < 128 then [n]
  else if n < 2048 then [192 + n / 64, 128 + n % 64]
  else if n < 65536 then [224 + n / 4096, 128 + n / 64 % 64, 128 + n % 64]
  else [240 + n / 262144, 128 + n / 4096 % 64, 128 + n / 64 % 64, 128 + n % 64]

/-- Embedding of `s.encode()`: the UTF-8 bytes of a string. -/
def strUtf8 (s : String) : List Nat :=
  (s.data.map utf8Bytes).flatten

/-- Decode one UTF-8 character from the front of a byte list. -/
def utf8DecStep : List Nat → Option (Char × List Nat)
  | [] => none
  | b :: r =>
    if b < 128 then some (Char.ofNat b, r)
    else if b < 224 then
      match r with
      | b1 :: r2 => some (Char.ofNat ((b - 192) * 64 + (b1 - 128)), r2)
      | [] => none
    else if b < 240 then
      match r with
      | b1 :: b2 :: r2 =>
        some (Char.ofNat ((b - 224) * 4096 + (b1 - 128) * 64 + (b2 - 128)), r2)
      | _ => none
    else
      match r with
      | b1 :: b2 :: b3 :: r2 =>
        some (Char.ofNat ((b - 240) * 262144 + (b1 - 128) * 4096
          + (b2 - 128) * 64 + (b3 - 128)), r2)
      | _ => none

/-- Fuelled UTF-8 decoder (the fuel only bounds the number of characters). -/
def utf8DecFuel : Nat → List Nat → Option (List Char)
  | _, [] => some []
  | 0, _ :: _ => none
  | f + 1, b :: r =>
    match utf8DecStep (b :: r) with
    | none => none
    | some (c, rest) => (utf8DecFuel f rest).map (fun cs => c :: cs)

theorem utf8DecStep_bytes (c : Char) (t : List Nat) :
    utf8DecStep (utf8Bytes c ++ t) = some (c, t) := by
  by_cases h1 : c.toNat < 128
  · have he : utf8Bytes c = [c.toNat] := by simp [utf8Bytes, h1]
    rw [he, List.cons_append, List.nil_append, utf8DecStep.eq_def]
    simp [h1, char_ofNat_toNat]
  · by_cases h2 : c.toNat < 2048
    · have he : utf8Bytes c = [192 + c.toNat / 64, 128 + c.toNat % 64] := by
        simp [utf8Bytes, h1, h2]
      rw [he]
      simp only [List.cons_append, List.nil_append]
      rw [utf8DecStep.eq_def]
      have hb1 : ¬ 192 + c.toNat / 64 < 128 := by omega
      have hb2 : 192 + c.toNat / 64 < 224 := by omega
      have harith : (192 + c.toNat / 64 - 192) * 64 + (128 + c.toNat % 64 - 128)
          = c.toNat := by omega
      simp [hb1, hb2, harith, char_ofNat_toNat]
      rw [show c.toNat / 64 * 64 + c.toNat % 64 = c.toNat by omega, char_ofNat_toNat]
    · by_cases h3 : c.toNat < 65536
      · have he : utf8Bytes c
            = [224 + c.toNat / 4096, 128 + c.toNat / 64 % 64, 128 + c.toNat % 64] := by
          simp [utf8Bytes, h1, h2, h3]
        rw [he]
        simp only [List.cons_append, List.nil_append]
        rw [utf8DecStep.eq_def]
        have hb1 : ¬ 224 + c.toNat / 4096 < 128 := by omega
        have hb2 : ¬ 224 + c.toNat / 4096 < 224 := by omega
        have hb3 : 224 + c.toNat / 4096 < 240 := by omega
        have harith : (224 + c.toNat / 4096 - 224) * 4096
            + (128 + c.toNat / 64 % 64 - 128) * 64 + (128 + c.toNat % 64 - 128)
            = c.toNat := by omega
        simp [hb1, hb2, hb3, harith, char_ofNat_toNat]
        rw [show c.toNat / 4096 * 4096 + c.toNat / 64 % 64 * 64 + c.toNat % 64
          = c.toNat by omega, char_ofNat_toNat]
      · have he : utf8Bytes c
            = [240 + c.toNat / 262144, 128 + c.toNat / 4096 % 64,
               128 + c.toNat / 64 % 64, 128 + c.toNat % 64] := by
          simp [utf8Bytes, h1, h2, h3]
        rw [he]
        simp only [List.cons_append, List.nil_append]
        rw [utf8DecStep.eq_def]
        have hb1 : ¬ 240 + c.toNat / 262144 < 128 := by omega
        have hb2 : ¬ 240 + c.toNat / 262144 < 224 := by omega
        have hb3 : ¬ 240 + c.toNat / 262144 < 240 := by omega
        have harith : (240 + c.toNat / 262144 - 240) * 262144
            + (128 + c.toNat / 4096 % 64 - 128) * 4096
            + (128 + c.toNat / 64 % 64 - 128) * 64 + (128 + c.toNat % 64 - 128)
            = c.toNat := by omega
        simp [hb1, hb2, hb3, harith, char_ofNat_toNat]
        rw [show c.toNat / 262144 * 262144 + c.toNat / 4096 % 64 * 4096
          + c.toNat / 64 % 64 * 64 + c.toNat % 64 = c.toNat by omega, char_ofNat_toNat]

theorem utf8Bytes_ne_nil (c : Char) : utf8Bytes c ≠ [] := by
  unfold utf8Bytes
  by_cases h1 : c.toNat < 128 <;> by_cases h2 : c.toNat < 2048 <;>
    by_cases h3 : c.toNat < 65536 <;> simp [h1, h2, h3]

theorem utf8DecFuel_round (s : List Char) (fuel : Nat) (hf : s.length ≤ fuel) :
    utf8DecFuel fuel ((s.map utf8Bytes).flatten) = some s := by
  induction s generalizing fuel with
  | nil => simp [utf8DecFuel]
  | cons c s ih =>
    obtain ⟨f, rfl⟩ : ∃ f, fuel = f + 1 := ⟨fuel - 1, by simp at hf; omega⟩
    rw [List.map_cons, List.flatten_cons]
    obtain ⟨b, bs, hb⟩ : ∃ b bs, utf8Bytes c = b :: bs := by
      cases hbe : utf8Bytes c with
      | nil => exact absurd hbe (utf8Bytes_ne_nil c)
      | cons b bs => exact ⟨b, bs, rfl⟩
    have hstep := utf8DecStep_bytes c ((s.map utf8Bytes).flatten)
    rw [hb] at hstep ⊢
    rw [List.cons_append, utf8DecFuel.eq_def]
    rw [List.cons_append] at hstep
    simp [hstep, ih f (by simp at hf; omega)]

theorem strUtf8_inj (s1 s2 : String) (h : strUtf8 s1 = strUtf8 s2) : s1 = s2 := by
  have hlen : ∀ s : String, s.data.length ≤ (strUtf8 s).length := by
    intro s
    show s.data.length ≤ ((s.data.map utf8Bytes).flatten).length
    induction s.data with
    | nil => simp
    | cons c cs ih =>
      rw [List.map_cons, List.flatten_cons, List.length_append, List.length_cons]
      have h1 : 1 ≤ (utf8Bytes c).length := by
        cases hbe : utf8Bytes c with
        | nil => exact absurd hbe (utf8Bytes_ne_nil c)
        | cons b bs => simp
      omega
  have h1 := utf8DecFuel_round s1.data (strUtf8 s1).length (hlen s1)
  have h2 := utf8DecFuel_round s2.data (strUtf8 s2).length (hlen s2)
  rw [show (s1.data.map utf8Bytes).flatten = strUtf8 s1 from rfl] at h1
  rw [show (s2.data.map utf8Bytes).flatten = strUtf8 s2 from rfl] at h2
  rw [h, ← h] at h1
  rw [← h] at h2
  rw [h2] at h1
  have hdata : s1.data = s2.data := ((Option.some.injEq _ _).mp h1).symm
  calc s1 = String.mk s1.data := (string_mk_data s1).symm
    _ = String.mk s2.data := by rw [hdata]
    _ = s2 := string_mk_data s2

/-! ## Cache key derivation (`perform_analysis`, step 0) -/

/-- Embedding of the cache-key derivation in `perform_analysis`:
`"themisai:analysis:" + sha256(req.model_dump_json().encode()).hexdigest()`. -/
def cache_key (req : AndroguardAnalysis) : String :=
  "themisai:analysis:" ++ sha256_hexdigest (strUtf8 (model_dump_json req))

/-! ## JSON values and parsing (`ThemisAIReport.model_validate_json`)

Pydantic v2 parses the JSON text and validates it against the model schema.
The parser below covers the JSON grammar with the string escapes the
serializer emits (every claim only exercises this fragment); lax-mode
coercions such as numeric strings for `float` fields are not modelled, as no
claim depends on them. -/

inductive JVal where
  | jnull
  | jbool (b : Bool)
  | jnum (q : ℚ)
  | jstr (s : String)
  | jarr (xs : List JVal)
  | jobj (fields : List (String × JVal))

/-- JSON insignificant whitespace. -/
def isJsonWs (c : Char) : Bool :=
  c = ' ' || c = '\t' || c = '\n' || c = '\r'

/-- Drop leading JSON whitespace. -/
def skipWs : List Char → List Char
  | [] => []
  | c :: r => if isJsonWs c then skipWs r else c :: r

/-- Take leading decimal digits. -/
def digitsTake : List Char → List Nat × List Char
  | [] => ([], [])
  | c :: r =>
    if 48 ≤ c.toNat ∧ c.toNat ≤ 57 then
      let (ds, rest) := digitsTake r
      ((c.toNat - 48) :: ds, rest)
    else ([], c :: r)

/-- Natural number denoted by a digit list (most significant first). -/
def natOfDigits (ds : List Nat) : Nat :=
  ds.foldl (fun acc d => 10 * acc + d) 0

/-- Parse a JSON number (strict grammar: optional minus, no leading zeros,
optional fraction and exponent) into an exact rational. -/
def parseNum (input : List Char) : Option (ℚ × List Char) :=
  let (neg, r0) :=
    match input with
    | '-' :: r => (true, r)
    | r => (false, r)
  let (ids, r1) := digitsTake r0
  match ids with
  | [] => none
  | d0 :: drest =>
    if d0 = 0 ∧ drest ≠ [] then none
    else
      let (fds, r2) :=
        match r1 with
        | '.' :: rf => digitsTake rf
        | _ => ([], r1)
      let hadDot := match r1 with | '.' :: _ => true | _ => false
      if hadDot ∧ fds = [] then none
      else
        let r2' := if hadDot then r2 else r1
        let (hasExp, expNeg, eds, r3) :=
          match r2' with
          | 'e' :: '-' :: re => (true, true, (digitsTake re).1, (digitsTake re).2)
          | 'e' :: '+' :: re => (true, false, (digitsTake re).1, (digitsTake re).2)
          | 'e' :: re => (true, false, (digitsTake re).1, (digitsTake re).2)
          | 'E' :: '-' :: re => (true, true, (digitsTake re).1, (digitsTake re).2)
          | 'E' :: '+' :: re => (true, false, (digitsTake re).1, (digitsTake re).2)
          | 'E' :: re => (true, false, (digitsTake re).1, (digitsTake re).2)
          | _ => (false, false, [], r2')
        if hasExp ∧ eds = [] then none
        else
          let k := fds.length
          let e := natOfDigits eds
          let mantNum : Nat := natOfDigits (ids ++ fds)
          let mag : ℚ :=
            if expNeg then mkRat (Int.ofNat mantNum) (10 ^ (k + e))
            else mkRat (Int.ofNat (mantNum * 10 ^ e)) (10 ^ k)
          some (if neg then -mag else mag, r3)

mutual

/-- Parse one JSON value. -/
def parseVal : Nat → List Char → Option (JVal × List Char)
  | 0, _ => none
  | f + 1, input =>
    match skipWs input with
    | [] => none
    | c :: r =>
      if c = '"' then
        match unescTail r with
        | some (s, rest) => some (.jstr (String.mk s), rest)
        | none => none
      else if c = '\x7b' then
        match skipWs r with
        | '\x7d' :: rest => some (.jobj [], rest)
        | r2 =>
          match parseMembers f r2 with
          | some (fields, rest) => some (.jobj fields, rest)
          | none => none
      else if c = '[' then
        match skipWs r with
        | ']' :: rest => some (.jarr [], rest)
        | r2 =>
          match parseElems f r2 with
          | some (xs, rest) => some (.jarr xs, rest)
          | none => none
      else if c = 't' then
        match r with
        | 'r' :: 'u' :: 'e' :: rest => some (.jbool true, rest)
        | _ => none
      else if c = 'f' then
        match r with
        | 'a' :: 'l' :: 's' :: 'e' :: rest => some (.jbool false, rest)
        | _ => none
      else if c = 'n' then
        match r with
        | 'u' :: 'l' :: 'l' :: rest => some (.jnull, rest)
        | _ => none
      else
        match parseNum (c :: r) with
        | some (q, rest) => some (.jnum q, rest)
        | none => none

/-- Parse the members of a non-empty JSON object, consuming the closing brace. -/
def parseMembers : Nat → List Char → Option (List (String × JVal) × List Char)
  | 0, _ => none
  | f + 1, input =>
    match skipWs input with
    | '"' :: r =>
      match unescTail r with
      | none => none
      | some (k, r2) =>
        match skipWs r2 with
        | ':' :: r3 =>
          match parseVal f r3 with
          | none => none
          | some (v, r4) =>
            match skipWs r4 with
            | ',' :: r5 =>
              match parseMembers f r5 with
              | some (fields, rest) => some ((String.mk k, v) :: fields, rest)
              | none => none
            | '\x7d' :: r5 => some ([(String.mk k, v)], r5)
            | _ => none
        | _ => none
    | _ => none

/-- Parse the elements of a non-empty JSON array, consuming the closing
bracket. -/
def parseElems : Nat → List Char → Option (List JVal × List Char)
  | 0, _ => none
  | f + 1, input =>
    match parseVal f input with
    | none => none
    | some (v, r) =>
      match skipWs r with
      | ',' :: r2 =>
        match parseElems f r2 with
        | some (xs, rest) => some (v :: xs, rest)
        | none => none
      | ']' :: r2 => some ([v], r2)
      | _ => none

end

/-- Parse a complete JSON document (no trailing content allowed). -/
def parseJson (s : String) : Option JVal :=
  match parseVal (s.data.length + 1) s.data with
  | some (v, rest) => if (skipWs rest).isEmpty then some v else none
  | none => none

/-- Python `dict` lookup semantics for repeated JSON keys: the last
occurrence wins. -/
def lookupLast (fields : List (String × JVal)) (key : String) : Option JVal :=
  fields.foldl (fun acc kv => if kv.1 = key then some kv.2 else acc) none

def asStr : JVal → Option String
  | .jstr s => some s
  | _ => none

def asNum : JVal → Option ℚ
  | .jnum q => some q
  | _ => none

def asStrList : JVal → Option (List String)
  | .jarr xs => xs.mapM asStr
  | _ => none

/-- Schema validation for `ThemisAIReport`: all six fields are required;
extra fields in the object are ignored. -/
def validateReport (v : JVal) : Option ThemisAIReport :=
  match v with
  | JVal.jobj fields => do
    let pn ← lookupLast fields "package_name" >>= asStr
    let sc ← lookupLast fields "score" >>= asNum
    let su ← lookupLast fields "summary" >>= asStr
    let vn ← lookupLast fields "vulnerability_name" >>= asStr
    let sl ← lookupLast fields "severity_level" >>= asStr
    let ma ← lookupLast fields "mitigation_actions" >>= asStrList
    pure ⟨pn, sc, su, vn, sl, ma⟩
  | _ => none

/-! ## Python exceptions -/

/-- Kind of a pydantic `ValidationError`. -/
inductive ValKind where
  | jsonInvalid
  | schemaViolation
deriving DecidableEq

/-- The Python exceptions the embedded code distinguishes. -/
inductive PyException where
  | validationError (kind : ValKind) (input : String)
  | jsonDecodeError (msg : String)
  | valueError (msg : String)
  | upstreamError (msg : String)
deriving DecidableEq

/-- Embedding of `ThemisAIReport.model_validate_json`.  Pydantic v2 parses
the text and validates the schema; on any failure it raises
`pydantic.ValidationError` — never `json.JSONDecodeError` — carrying the
offending input (whose display is truncated by pydantic's error rendering). -/
def model_validate_json (s : String) : Except PyException ThemisAIReport :=
  match parseJson s with
  | none => Except.error (PyException.validationError ValKind.jsonInvalid s)
  | some v =>
    match validateReport v with
    | none => Except.error (PyException.validationError ValKind.schemaViolation s)
    | some r => Except.ok r

/-! ## Prompt assembly (`analysis_domain.py`) -/

/-- Library-generated JSON schema text used inside the system prompt
(`json.dumps(ThemisAIReport.model_json_schema(), indent=2)`).  Transcribed
from the pydantic v2 schema of the model; this constant is uninterpreted by
every theorem below — no claim depends on its exact text. -/
def schema_json_str : String :=
  "\x7b\n  \"properties\": \x7b\n    \"package_name\": \x7b\n      \"title\": \"Package Name\",\n      \"type\": \"string\"\n    \x7d,\n    \"score\": \x7b\n      \"title\": \"Score\",\n      \"type\": \"number\"\n    \x7d,\n    \"summary\": \x7b\n      \"title\": \"Summary\",\n      \"type\": \"string\"\n    \x7d,\n    \"vulnerability_name\": \x7b\n      \"title\": \"Vulnerability Name\",\n      \"type\": \"string\"\n    \x7d,\n    \"severity_level\": \x7b\n      \"title\": \"Severity Level\",\n      \"type\": \"string\"\n    \x7d,\n    \"mitigation_actions\": \x7b\n      \"items\": \x7b\n        \"type\": \"string\"\n      \x7d,\n      \"title\": \"Mitigation Actions\",\n      \"type\": \"array\"\n    \x7d\n  \x7d,\n  \"required\": [\n    \"package_name\",\n    \"score\",\n    \"summary\",\n    \"vulnerability_name\",\n    \"severity_level\",\n    \"mitigation_actions\"\n  ],\n  \"title\": \"ThemisAIReport\",\n  \"type\": \"object\"\n\x7d"

/-- Embedding of `AnalysisDomain._get_system_prompt`. -/
def _get_system_prompt : String :=
  "\n        Você é um Analista de Segurança Sênior, especializado em análise estática de aplicativos Android.\n\n        Sua única e estrita tarefa é ANALISAR os dados brutos do aplicativo fornecidos\n        e usar o CONTEXTO MITRE fornecido para identificar vulnerabilidades e mitigá-las.\n\n        SUA RESPOSTA DEVE SER ESTREITAMENTE O OBJETO JSON COMPLETO, SEM QUALQUER TEXTO EXPLICATIVO, \n        CABEÇALHO, MARCAÇÃO DE CÓDIGO (```JSON) OU INTRODUÇÃO.\n\n        FORMATO DE SAÍDA OBRIGATÓRIO (JSON Schema):\n        ---\n        "
    ++ schema_json_str
    ++ "\n        ---\n        "

/-- The 80-character separator row used in the final prompt. -/
def hashRow : String :=
  "################################################################################"

/-- Rendering of the retrieved fragments, one `"  - "`-prefixed line each
(`"\n".join([f"  - ..." for c in mitre_context])`). -/
def mitre_context_str (mitre_context : List String) : String :=
  String.intercalate "\n" (mitre_context.map (fun c => "  - " ++ c))

/-- The final prompt's text before the rendered fragments. -/
def final_prompt_pre (system_prompt : String) : String :=
  "\n        " ++ system_prompt
    ++ "\n\n        " ++ hashRow
    ++ "\n        # CONTEXTO GERAL DE SEGURANÇA (MITRE ATT&CK Mobile)\n        " ++ hashRow
    ++ "\n        Use este contexto para identificar e categorizar vulnerabilidades presentes nos \n        dados do aplicativo e sugerir mitigações.\n\n        Chunk de Conhecimento:\n        "

/-- The final prompt's text between the rendered fragments and the specific
context. -/
def final_prompt_mid : String :=
  "\n\n\n        " ++ hashRow
    ++ "\n        # DADOS BRUTOS DA APLICAÇÃO (ANDROGUARD)\n        " ++ hashRow
    ++ "\n        Analise o conteúdo abaixo (logs, permissões, resultados de análise estática)\n        para correlacionar com as técnicas MITRE.\n\n        "

/-- The final prompt's closing instructions. -/
def final_prompt_post : String :=
  "\n\n\n        " ++ hashRow
    ++ "\n        # TAREFA FINAL E RESTRIÇÕES\n        " ++ hashRow
    ++ "\n        Sua análise deve ser completa, baseada estritamente nos dados fornecidos. \n        Gere o relatório de segurança completo no formato JSON ESPECIFICADO NO INÍCIO \n        (ThemisAIReport), sem adicionar nenhuma outra informação.\n        "

/-- Embedding of `AnalysisDomain._format_final_prompt`: system block, the
fragments one per line, the application context and the closing
instructions, in fixed order. -/
def _format_final_prompt (system_prompt : String) (app_context : String)
    (mitre_context : List String) : String :=
  final_prompt_pre system_prompt ++ mitre_context_str mitre_context
    ++ final_prompt_mid ++ app_context ++ final_prompt_post

/-! ## Pretty serialization (`req.model_dump_json(indent=2)`) -/

/-- Items of a pretty-printed string array at four-space indentation. -/
def prettyItems : List String → List Char
  | [] => []
  | [s] => "    ".data ++ serializeStr s
  | s :: rest => "    ".data ++ serializeStr s ++ ",\n".data ++ prettyItems rest

/-- Pretty-printed string array at the two-space field indentation. -/
def prettyStrList (l : List String) : List Char :=
  match l with
  | [] => "[]".data
  | _ => '[' :: '\n' :: prettyItems l ++ "\n  ]".data

/-- Embedding of `req.model_dump_json(indent=2)` (serde_json pretty printing
with two-space indent). -/
def model_dump_json_indent2 (r : AndroguardAnalysis) : String :=
  String.mk ("\x7b\n  \"package_name\": ".data ++ serializeStr r.package_name
    ++ ",\n  \"permissions_list\": ".data ++ prettyStrList r.permissions_list
    ++ ",\n  \"dalvik_analysis_log\": ".data ++ serializeStr r.dalvik_analysis_log
    ++ "\n\x7d".data)

/-- Embedding of the `specific_context` f-string built on a cache miss
(package identifier plus the full indent-2 serialized request). -/
def specific_context (req : AndroguardAnalysis) : String :=
  "\n        # CONTEXTO ESPECÍFICO DA APLICAÇÃO (ANDROGUARD)\n        Pacote: "
    ++ req.package_name
    ++ ".\n        Dados Analíticos Brutos (JSON):\n        "
    ++ model_dump_json_indent2 req
    ++ "\n        "

/-! ## The analysis coordinator (`AnalysisDomain.perform_analysis`)

The three injected services are modelled as oracles; each service invocation
is recorded as an event.  Exceptions raised by an oracle abort the sequence
exactly as a raised Python exception would. -/

/-- One observable service invocation made by `perform_analysis`. -/
inductive Event where
  | cacheGetEv (key : String)
  | searchVectorEv (query : String)
  | generateEv (prompt : String) (max_tokens : Nat)
  | cacheSetEv (key : String) (value : String) (ex : Nat)
deriving DecidableEq

/-- Oracles for the injected services.

`cacheGet` models `self.cache.get` (`string | absent`, per the cache
protocol).

`searchVector` — Modelled from the spec: the coordinator awaits
`self.retriever.search_vector(...)`, which the provided sources do not
define (`OpenSearchService` only defines `search_knn_slim` and
`search_hybrid_slim`; the unit tests mock `search_vector`).  Per the spec's
retrieval step it returns an ordered sequence of short text fragments; an
`Except.error` models a raised upstream exception.

`generate` models `self.generator.generate_response_async`; an
`Except.error` models a raised upstream exception (subprocess failure or
timeout). -/
structure Oracles where
  cacheGet : String → Option String
  searchVector : String → Except String (List String)
  generate : String → Nat → Except String String

/-- Embedding of the final parse-and-return step of `perform_analysis`:
`try: return ThemisAIReport.model_validate_json(...)` with an
`except json.JSONDecodeError` clause that re-raises as `ValueError` with a
200-character excerpt.  `model_validate_json` only ever raises
`pydantic.ValidationError`, so the handler can never fire; it is embedded
faithfully nonetheless. -/
def parse_and_return (json_response_str : String) : Except PyException ThemisAIReport :=
  match model_validate_json json_response_str with
  | Except.ok r => Except.ok r
  | Except.error e =>
    match e with
    | PyException.jsonDecodeError m =>
      Except.error (PyException.valueError
        ("LLM retornou JSON inválido. Erro: " ++ m ++ ". Output: "
          ++ json_response_str.take 200 ++ "..."))
    | other => Except.error other

/-- The cache-miss path of `perform_analysis` (steps 1-5). -/
def perform_analysis_miss (o : Oracles) (req : AndroguardAnalysis)
    (key : String) (ev0 : List Event) :
    Except PyException ThemisAIReport × List Event :=
  let ctx := specific_context req
  let ev1 := ev0 ++ [Event.searchVectorEv ctx]
  match o.searchVector ctx with
  | Except.error m => (Except.error (PyException.upstreamError m), ev1)
  | Except.ok mitre_chunks =>
    let final_prompt := _format_final_prompt _get_system_prompt ctx mitre_chunks
    let ev2 := ev1 ++ [Event.generateEv final_prompt 512]
    match o.generate final_prompt 512 with
    | Except.error m => (Except.error (PyException.upstreamError m), ev2)
    | Except.ok json_response_str =>
      let ev3 := ev2 ++ [Event.cacheSetEv key json_response_str 3600]
      (parse_and_return json_response_str, ev3)

/-- Embedding of `AnalysisDomain.perform_analysis`: derive the cache key,
read the cache; on a truthy hit deserialize and return immediately;
otherwise run retrieval, prompt assembly, generation, the cache write (TTL
3600 seconds) and the final parse, in that order. -/
def perform_analysis (o : Oracles) (req : AndroguardAnalysis) :
    Except PyException ThemisAIReport × List Event :=
  let key := cache_key req
  let ev0 := [Event.cacheGetEv key]
  match o.cacheGet key with
  | some cached_report =>
    if cached_report = "" then perform_analysis_miss o req key ev0
    else (model_validate_json cached_report, ev0)
  | none => perform_analysis_miss o req key ev0

/-- Number of retrieval invocations in a trace. -/
def retrievalCount (t : List Event) : Nat :=
  (t.filter (fun e => match e with | Event.searchVectorEv _ => true | _ => false)).length

/-- Number of generation invocations in a trace. -/
def generationCount (t : List Event) : Nat :=
  (t.filter (fun e => match e with | Event.generateEv _ _ => true | _ => false)).length

/-- Number of cache writes in a trace. -/
def cacheWriteCount (t : List Event) : Nat :=
  (t.filter (fun e => match e with | Event.cacheSetEv _ _ _ => true | _ => false)).length

/-! ## Search service (`app/services/opensearch_service.py`)

The OpenSearch client, the embedding model and the index are external; their
responses are oracles.  `metadata` values are open objects never inspected by
the embedded code, modelled as an opaque `Option String` (with `none` for an
absent/`None` value). -/

/-- One caller-supplied document for `index_docs` (`{id, text, metadata}`).
`text` is accessed with `d["text"]`, so it is required. -/
structure IndexDoc where
  id : Option String
  text : String
  metadata : Option String

/-- One bulk action produced by `index_docs`. -/
structure BulkAction where
  op_type : String
  index : String
  action_id : Option String
  source_id : Option String
  source_text : String
  source_metadata : Option String
  source_vector : List ℚ
deriving DecidableEq

/-- Observable interactions of `index_docs` with the outside world. -/
inductive OSEvent where
  | ensureIndexEv
  | encodeEv (texts : List String)
  | bulkEv (actions : List BulkAction)
deriving DecidableEq

/-- Oracles for `index_docs`: the embedding model's batch encoding and the
bulk helper's success count. -/
structure OSOracles where
  encode : List String → List (List ℚ)
  bulk : List BulkAction → Nat

/-- Python `x or {}` normalization for the metadata field: a falsy value
(`None`) becomes the empty object. -/
def metaOrEmpty (m : Option String) : Option String :=
  match m with
  | none => some ""
  | some s => some s

/-- Embedding of `OpenSearchService.index_docs`: empty input short-circuits
to `{"indexed": 0}`; otherwise ensure the index, batch-encode every text,
build one `index` action per (doc, vector) pair and bulk-write them,
returning the success count. -/
def index_docs (o : OSOracles) (index_name : String) (docs : List IndexDoc) :
    Nat × List OSEvent :=
  if docs.isEmpty then (0, [])
  else
    let texts := docs.map (fun d => d.text)
    let vectors := o.encode texts
    let actions := (docs.zip vectors).map (fun dv =>
      { op_type := "index"
        index := index_name
        action_id := dv.1.id
        source_id := dv.1.id
        source_text := dv.1.text
        source_metadata := metaOrEmpty dv.1.metadata
        source_vector := dv.2 : BulkAction })
    let success := o.bulk actions
    (success, [OSEvent.ensureIndexEv, OSEvent.encodeEv texts, OSEvent.bulkEv actions])

/-- A raw search hit as consumed by the RRF merge (`h.get("_id")`). -/
structure OSHit where
  oid : Option String
deriving DecidableEq

/-- Truthy document id of a hit: `None` and `""` are falsy and skipped. -/
def hitKey (h : OSHit) : Option String :=
  match h.oid with
  | some s => if s = "" then none else some s
  | none => none

/-- `scores.setdefault(_id, 0.0); scores[_id] += v` on an insertion-ordered
association list (Python `dict` semantics). -/
def bump : List (String × ℚ) → String → ℚ → List (String × ℚ)
  | [], k, v => [(k, v)]
  | (k1, v1) :: t, k, v =>
    if k1 = k then (k1, v1 + v) :: t else (k1, v1) :: bump t k v

/-- The `add_rrf` loop: each hit at 1-based `rank` with a truthy `_id`
contributes `1.0 / (60 + rank)` to the running score map. -/
def addRrfAux (scores : List (String × ℚ)) (rank : Nat) :
    List OSHit → List (String × ℚ)
  | [] => scores
  | h :: t =>
    match hitKey h with
    | none => addRrfAux scores (rank + 1) t
    | some k => addRrfAux (bump scores k (1 / ((60 + rank : Nat) : ℚ))) (rank + 1) t

/-- Embedding of `add_rrf(hlist)` (ranks start at 1). -/
def add_rrf (scores : List (String × ℚ)) (hlist : List OSHit) : List (String × ℚ) :=
  addRrfAux scores 1 hlist

/-- Stable descending insertion by score (the behaviour of Python's stable
`sorted(..., key=lambda x: x[1], reverse=True)`). -/
def insortDesc (x : String × ℚ) : List (String × ℚ) → List (String × ℚ)
  | [] => [x]
  | y :: ys => if y.2 ≤ x.2 then x :: y :: ys else y :: insortDesc x ys

/-- Stable descending sort by score. -/
def sortByScoreDesc : List (String × ℚ) → List (String × ℚ)
  | [] => []
  | x :: xs => insortDesc x (sortByScoreDesc xs)

/-- One document of an `mget` response. -/
structure MgetDoc where
  found : Bool
  oid : Option String
  src_id : Option String
  text : String
  meta : Option String
deriving DecidableEq

/-- One slim hit returned by `search_hybrid_slim`. -/
structure OutHit where
  id : Option String
  score : ℚ
  text : String
  meta : Option String
deriving DecidableEq

/-- Python `a or b` on optional strings (`None` and `""` are falsy). -/
def pyOr (a b : Option String) : Option String :=
  match a with
  | some s => if s = "" then b else a
  | none => b

/-- `scores.get(key, 0)`: value at the (unique) key, or 0. -/
def lookupQ : List (String × ℚ) → String → ℚ
  | [], _ => 0
  | kv :: t, key => if kv.1 = key then kv.2 else lookupQ t key

/-- `scores.get(key, 0)` with an optional key. -/
def lookupScoreOpt (scores : List (String × ℚ)) (key : Option String) : ℚ :=
  match key with
  | none => 0
  | some k => lookupQ scores k

/-- Oracles for `search_hybrid_slim`: the two underlying searches, the query
embedding, and the `mget` re-fetch. -/
structure HybridOracles where
  bm25Search : String → Nat → List OSHit
  encodeOne : String → List ℚ
  knnSearch : List ℚ → Nat → List OSHit
  mget : List String → List MgetDoc

/-- Embedding of `OpenSearchService.search_hybrid_slim`: run BM25 and KNN
(each up to `top_k` hits), merge with Reciprocal Rank Fusion (constant 60),
sort ids by fused score descending (stable), take the top `top_k`, re-fetch
those ids with `mget` and return found documents annotated with the fused
score.  `_ensure_index` is invoked first; it is idempotent and its outcome
is not observed by any claim, so it is not traced. -/
def search_hybrid_slim (o : HybridOracles) (query : String) (top_k : Nat) :
    List OutHit :=
  let bm25_hits := o.bm25Search query top_k
  let vec := o.encodeOne query
  let knn_hits := o.knnSearch vec top_k
  let scores := add_rrf (add_rrf [] bm25_hits) knn_hits
  if scores.isEmpty then []
  else
    let merged := sortByScoreDesc scores
    let top_ids := (merged.take top_k).map Prod.fst
    let docs := o.mget top_ids
    docs.filterMap (fun d =>
      if d.found then
        some { id := pyOr d.src_id d.oid
               score := lookupScoreOpt scores d.oid
               text := d.text
               meta := d.meta : OutHit }
      else none)

/-- Total RRF contribution of `key` from a hit list starting at `rank`:
`1 / (60 + i)` summed over the 1-based positions `i` holding `key`. -/
def rrfContribution (key : String) (rank : Nat) : List OSHit → ℚ
  | [] => 0
  | h :: t =>
    (if hitKey h = some key then 1 / ((60 + rank : Nat) : ℚ) else 0)
      + rrfContribution key (rank + 1) t


/-! ## Text generation service (`app/services/llama_service.py`)

The subprocess is external: its outcome for a given command line is an
oracle.  Decoding differences between the two variants (`text=True` strict
decoding vs `errors="ignore"`) sit below the string abstraction used here. -/

/-- The single-quote character, used by `shlex` quoting. -/
def sqChar : Char := Char.ofNat 39

/-- The single-quote character as a string. -/
def sqStr : String := String.singleton sqChar

/-- Characters `shlex.quote` considers safe (`[-a-zA-Z0-9_@%+=:,./]`). -/
def shlexSafeChar (c : Char) : Bool :=
  (97 ≤ c.toNat && c.toNat ≤ 122) || (65 ≤ c.toNat && c.toNat ≤ 90)
    || (48 ≤ c.toNat && c.toNat ≤ 57) || c = '_' || c = '@' || c = '%' || c = '+'
    || c = '=' || c = ':' || c = ',' || c = '.' || c = '/' || c = '-'

/-- Embedding of `shlex.quote`. -/
def shlexQuote (s : String) : String :=
  if s = "" then sqStr ++ sqStr
  else if s.data.all shlexSafeChar then s
  else sqStr ++ s.replace sqStr (sqStr ++ "\"" ++ sqStr ++ "\"" ++ sqStr) ++ sqStr

/-- Embedding of `shlex.join`. -/
def shlexJoin (cmd : List String) : String :=
  String.intercalate " " (cmd.map shlexQuote)

/-- The state of a constructed `LlamaService` (paths already validated at
construction; path autodetection happens before any generation call and is
not exercised by any claim). -/
structure LlamaService where
  llama_cpp : String
  model_path : String
  default_ngl : String
  default_extra_args : List String

/-- Embedding of `LlamaService._build_command`: fixed flag order, the prompt
always passed behind `-p`, then either the caller's extra args (if truthy)
or the configured defaults — never both. -/
def _build_command (svc : LlamaService) (prompt : String) (max_tokens : Nat)
    (extra_args : Option (List String)) : List String :=
  [svc.llama_cpp, "-m", svc.model_path, "-n", toString max_tokens,
   "-ngl", svc.default_ngl, "-p", prompt]
    ++ (match extra_args with
        | some (a :: rest) => a :: rest
        | _ => svc.default_extra_args)

/-- Outcome of running the subprocess once: completion with exit code and
captured output, or expiry of the wall-clock timeout. -/
inductive ProcOutcome where
  | completed (returncode : Int) (stdout : String) (stderr : String)
  | timedOut
deriving DecidableEq

/-- Errors surfaced by the generation wrappers.  `timeoutExpired` models the
`subprocess.TimeoutExpired` exception that `subprocess.run` raises (carrying
the command and the timeout); `runtimeError` models a raised `RuntimeError`
with its message. -/
inductive LlamaError where
  | timeoutExpired (cmd : List String) (timeout : Option ℚ)
  | runtimeError (msg : String)
deriving DecidableEq

/-- Embedding of the synchronous `LlamaService.generate_response`: build the
command, run it; a timeout lets `subprocess.TimeoutExpired` propagate; a
non-zero exit raises `RuntimeError` with the exit code, joined command and
stderr; success returns stripped stdout. -/
def generate_response (svc : LlamaService) (run : List String → ProcOutcome)
    (prompt : String) (max_tokens : Nat) (extra_args : Option (List String))
    (timeout : Option ℚ) : Except LlamaError String :=
  let cmd := _build_command svc prompt max_tokens extra_args
  match run cmd with
  | ProcOutcome.timedOut => Except.error (LlamaError.timeoutExpired cmd timeout)
  | ProcOutcome.completed rc out err =>
    if rc ≠ 0 then
      Except.error (LlamaError.runtimeError
        ("LLaMA falhou (exit " ++ toString rc ++ ").\ncmd: " ++ shlexJoin cmd
          ++ "\nstderr:\n" ++ err))
    else Except.ok out.trim

/-- Embedding of the asynchronous `LlamaService.generate_response_async`:
identical command construction and completed-process handling, but on
timeout it kills the child (best effort) and raises `RuntimeError` with a
"LLaMA timeout" message naming the joined command. -/
def generate_response_async (svc : LlamaService) (run : List String → ProcOutcome)
    (prompt : String) (max_tokens : Nat) (extra_args : Option (List String))
    (timeout : Option ℚ) : Except LlamaError String :=
  let cmd := _build_command svc prompt max_tokens extra_args
  match run cmd with
  | ProcOutcome.timedOut =>
    Except.error (LlamaError.runtimeError ("LLaMA timeout.\ncmd: " ++ shlexJoin cmd))
  | ProcOutcome.completed rc out err =>
    if rc ≠ 0 then
      Except.error (LlamaError.runtimeError
        ("LLaMA falhou (exit " ++ toString rc ++ ").\ncmd: " ++ shlexJoin cmd
          ++ "\nstderr:\n" ++ err))
    else Except.ok out.trim

/-! ## HTTP dependency factory (`app/routes/app_analysis.py`)

Python raises `TypeError` naming the missing required arguments of a call
before the callee's body runs; this is the only piece of Python call
semantics the embedding needs. -/

/-- Required parameters of `AnalysisDomain.__init__` (all without defaults):
`retriever`, `generator`, `cache`. -/
def analysis_domain_init_params : List String := ["retriever", "generator", "cache"]

/-- Keyword arguments supplied by the factory `get_analysis_domain`:
`retriever` and `generator` only. -/
def get_analysis_domain_args : List String := ["retriever", "generator"]

/-- Result of a Python call: a value, or a `TypeError` naming the missing
required arguments (raised before the callee's body executes). -/
inductive PyCall (α : Type) where
  | ok (a : α)
  | typeError (missing : List String)
deriving DecidableEq

/-- Python call semantics for `AnalysisDomain(**provided)`. -/
def call_analysis_domain_init (provided : List String) : PyCall Unit :=
  let missing := analysis_domain_init_params.filter (fun p => ¬ provided.contains p)
  if missing.isEmpty then PyCall.ok () else PyCall.typeError missing

/-- Embedding of the dependency factory `get_analysis_domain`, which
constructs `AnalysisDomain(retriever=..., generator=...)` with no `cache`
argument. -/
def get_analysis_domain : PyCall Unit :=
  call_analysis_domain_init get_analysis_domain_args

/-! ## Supporting lemmas -/

theorem hexWordChars_length (w : Nat) : (hexWordChars w).length = 8 := by
  simp [hexWordChars]

theorem sha256_hexdigest_length (msg : List Nat) :
    (sha256_hexdigest msg).length = 64 := by
  show (String.mk _).length = 64
  simp [String.length, sha256_hexdigest, hexWordChars_length]

theorem hexDigitLower_mem_hex (m : Nat) (h : m < 16) :
    hexDigitLower m ∈ "0123456789abcdef".data := by
  interval_cases m <;> decide

theorem hexWordChars_mem (w : Nat) (c : Char) (hc : c ∈ hexWordChars w) :
    c ∈ "0123456789abcdef".data := by
  simp only [hexWordChars, List.mem_map, List.mem_range] at hc
  obtain ⟨i, _, he⟩ := hc
  rw [← he]
  exact hexDigitLower_mem_hex _ (Nat.mod_lt _ (by norm_num))

theorem string_mk_data_eq (l : List Char) : (String.mk l).data = l := rfl

theorem sha256_hexdigest_mem (msg : List Nat) (c : Char)
    (hc : c ∈ (sha256_hexdigest msg).data) : c ∈ "0123456789abcdef".data := by
  simp only [sha256_hexdigest, string_mk_data_eq, List.mem_append] at hc
  rcases hc with ((((((h | h) | h) | h) | h) | h) | h) | h <;>
    exact hexWordChars_mem _ _ h

theorem model_validate_json_empty :
    model_validate_json ""
      = Except.error (PyException.validationError ValKind.jsonInvalid "") := rfl

theorem model_validate_json_error_shape (s : String) (e : PyException)
    (h : model_validate_json s = Except.error e) :
    ∃ k, e = PyException.validationError k s := by
  unfold model_validate_json at h
  split at h
  · exact ⟨ValKind.jsonInvalid, ((Except.error.injEq _ _).mp h).symm⟩
  · split at h
    · exact ⟨ValKind.schemaViolation, ((Except.error.injEq _ _).mp h).symm⟩
    · exact Except.noConfusion h

theorem parse_and_return_error (out : String) (e : PyException)
    (h : model_validate_json out = Except.error e) :
    parse_and_return out = Except.error e := by
  obtain ⟨k, rfl⟩ := model_validate_json_error_shape out e h
  unfold parse_and_return
  rw [h]

theorem parse_and_return_ok (out : String) (r : ThemisAIReport)
    (h : model_validate_json out = Except.ok r) :
    parse_and_return out = Except.ok r := by
  unfold parse_and_return
  rw [h]

/-! ## Claim theorems -/

/-- C2: two requests with identical `package_name`, `permissions_list` and
`dalvik_analysis_log` derive the same cache key; the key is the fixed
namespace tag `"themisai:analysis:"` followed by the 64-character lower-case
hex SHA-256 digest of the canonical serialization's UTF-8 bytes; and two
requests can only share a key if they are equal or the hash collides on
their (distinct) canonical serializations. -/
theorem C2_cache_key_spec :
    (∀ r1 r2 : AndroguardAnalysis,
      r1.package_name = r2.package_name →
      r1.permissions_list = r2.permissions_list →
      r1.dalvik_analysis_log = r2.dalvik_analysis_log →
      cache_key r1 = cache_key r2)
    ∧ (∀ r : AndroguardAnalysis, ∃ d : String,
        cache_key r = "themisai:analysis:" ++ d ∧ d.length = 64
          ∧ ∀ c ∈ d.data, c ∈ "0123456789abcdef".data)
    ∧ (∀ r1 r2 : AndroguardAnalysis, cache_key r1 = cache_key r2 →
        r1 = r2 ∨ (model_dump_json r1 ≠ model_dump_json r2
          ∧ sha256_hexdigest (strUtf8 (model_dump_json r1))
            = sha256_hexdigest (strUtf8 (model_dump_json r2)))) := by
  refine ⟨?_, ?_, ?_⟩
  · intro r1 r2 h1 h2 h3
    obtain ⟨p1, l1, d1⟩ := r1
    obtain ⟨p2, l2, d2⟩ := r2
    simp only at h1 h2 h3
    rw [h1, h2, h3]
  · intro r
    exact ⟨sha256_hexdigest (strUtf8 (model_dump_json r)), rfl,
      sha256_hexdigest_length _, fun c hc => sha256_hexdigest_mem _ c hc⟩
  · intro r1 r2 h
    have hdig : sha256_hexdigest (strUtf8 (model_dump_json r1))
        = sha256_hexdigest (strUtf8 (model_dump_json r2)) := by
      have hd := congrArg String.data h
      simp only [cache_key, String.data_append] at hd
      have := List.append_cancel_left hd
      calc sha256_hexdigest (strUtf8 (model_dump_json r1))
          = String.mk (sha256_hexdigest (strUtf8 (model_dump_json r1))).data :=
            (string_mk_data _).symm
        _ = String.mk (sha256_hexdigest (strUtf8 (model_dump_json r2))).data := by rw [this]
        _ = sha256_hexdigest (strUtf8 (model_dump_json r2)) := string_mk_data _
    by_cases hmd : model_dump_json r1 = model_dump_json r2
    · exact Or.inl (model_dump_json_inj r1 r2 hmd)
    · exact Or.inr ⟨hmd, hdig⟩

/-- Witness for C2 at a concrete request. -/
theorem C2_cache_key_spec_witness :
    cache_key ⟨"com.example.app", ["INTERNET"], "suspicious call to sendSms"⟩
      = cache_key ⟨"com.example.app", ["INTERNET"], "suspicious call to sendSms"⟩
    ∧ ((⟨"com.example.app", ["INTERNET"], "suspicious call to sendSms"⟩ : AndroguardAnalysis)
        = ⟨"com.example.app", ["INTERNET"], "suspicious call to sendSms"⟩
      ∨ (model_dump_json ⟨"com.example.app", ["INTERNET"], "suspicious call to sendSms"⟩
          ≠ model_dump_json ⟨"com.example.app", ["INTERNET"], "suspicious call to sendSms"⟩
        ∧ sha256_hexdigest (strUtf8 (model_dump_json
            ⟨"com.example.app", ["INTERNET"], "suspicious call to sendSms"⟩))
          = sha256_hexdigest (strUtf8 (model_dump_json
            ⟨"com.example.app", ["INTERNET"], "suspicious call to sendSms"⟩)))) :=
  ⟨C2_cache_key_spec.1 _ _ rfl rfl rfl, C2_cache_key_spec.2.2 _ _ rfl⟩

/-- C9: the dependency factory `get_analysis_domain` constructs
`AnalysisDomain` without the required `cache` argument, so every request
routed through it raises `TypeError` naming the missing `cache` parameter
before a domain object (and hence `perform_analysis`) can exist. -/
theorem C9_factory_missing_cache :
    get_analysis_domain = PyCall.typeError ["cache"]
      ∧ ∀ u : Unit, get_analysis_domain ≠ PyCall.ok u := by
  have h : get_analysis_domain = PyCall.typeError ["cache"] := by decide
  exact ⟨h, fun u hu => by rw [h] at hu; exact PyCall.noConfusion hu⟩

/-- C10: bulk-indexing an empty document list returns a zero count and
performs no side effect at all: no embedding-provider call, no
ensure-index, no bulk write. -/
theorem C10_empty_bulk_index (o : OSOracles) (index_name : String) :
    index_docs o index_name [] = (0, []) := by
  simp [index_docs]

/-- C1: when the cache holds a value under the derived key that deserializes
into a report, `perform_analysis` returns exactly that deserialized report,
and its trace is the single cache read — no retrieval, no generation, no
cache write. -/
theorem C1_cache_hit_frame (o : Oracles) (req : AndroguardAnalysis)
    (v : String) (r : ThemisAIReport)
    (hget : o.cacheGet (cache_key req) = some v)
    (hparse : model_validate_json v = Except.ok r) :
    perform_analysis o req = (Except.ok r, [Event.cacheGetEv (cache_key req)])
      ∧ retrievalCount (perform_analysis o req).2 = 0
      ∧ generationCount (perform_analysis o req).2 = 0
      ∧ cacheWriteCount (perform_analysis o req).2 = 0 := by
  have hv : ¬ v = "" := by
    intro hveq
    rw [hveq, model_validate_json_empty] at hparse
    exact Except.noConfusion hparse
  have hmain : perform_analysis o req
      = (Except.ok r, [Event.cacheGetEv (cache_key req)]) := by
    simp only [perform_analysis]
    rw [hget]
    simp [hv, hparse]
  refine ⟨hmain, ?_, ?_, ?_⟩ <;> rw [hmain] <;> rfl

deriving instance DecidableEq for Except

/-- Witness oracles for C1: a cache that returns a fixed valid serialized
report for every key. -/
def c1Oracles : Oracles :=
  { cacheGet := fun _ =>
      some "\x7b\"package_name\":\"com.example.vulnerableapp\",\"score\":7.5,\"summary\":\"ok\",\"vulnerability_name\":\"v\",\"severity_level\":\"High\",\"mitigation_actions\":[\"m\"]\x7d"
    searchVector := fun _ => Except.ok []
    generate := fun _ _ => Except.ok "" }

/-- The report denoted by the C1 witness cache value. -/
def c1Report : ThemisAIReport :=
  ⟨"com.example.vulnerableapp", mkRat 75 10, "ok", "v", "High", ["m"]⟩

/-- Witness for C1 at concrete oracles and request. -/
theorem C1_cache_hit_frame_witness :
    perform_analysis c1Oracles ⟨"com.example.vulnerableapp", ["INTERNET"], "log"⟩
      = (Except.ok c1Report,
        [Event.cacheGetEv (cache_key ⟨"com.example.vulnerableapp", ["INTERNET"], "log"⟩)]) :=
  (C1_cache_hit_frame c1Oracles ⟨"com.example.vulnerableapp", ["INTERNET"], "log"⟩
    _ c1Report rfl (by decide)).1

theorem perform_analysis_miss_trace (o : Oracles) (req : AndroguardAnalysis)
    (chunks : List String) (out : String)
    (hmiss : o.cacheGet (cache_key req) = none)
    (hret : o.searchVector (specific_context req) = Except.ok chunks)
    (hgen : o.generate
      (_format_final_prompt _get_system_prompt (specific_context req) chunks) 512
      = Except.ok out) :
    perform_analysis o req
      = (parse_and_return out,
        [Event.cacheGetEv (cache_key req),
         Event.searchVectorEv (specific_context req),
         Event.generateEv
           (_format_final_prompt _get_system_prompt (specific_context req) chunks) 512,
         Event.cacheSetEv (cache_key req) out 3600]) := by
  simp only [perform_analysis, perform_analysis_miss, hmiss, hret, hgen]
  simp

/-- C3: on a cache miss (absent value) with the upstream calls succeeding,
`perform_analysis` performs exactly one retrieval, one generation and one
cache write, storing the raw generation output verbatim under the derived
key with a 3600-second expiration, in that order after the cache read. -/
theorem C3_cache_miss_effects (o : Oracles) (req : AndroguardAnalysis)
    (chunks : List String) (out : String)
    (hmiss : o.cacheGet (cache_key req) = none)
    (hret : o.searchVector (specific_context req) = Except.ok chunks)
    (hgen : o.generate
      (_format_final_prompt _get_system_prompt (specific_context req) chunks) 512
      = Except.ok out) :
    (perform_analysis o req).2
      = [Event.cacheGetEv (cache_key req),
         Event.searchVectorEv (specific_context req),
         Event.generateEv
           (_format_final_prompt _get_system_prompt (specific_context req) chunks) 512,
         Event.cacheSetEv (cache_key req) out 3600]
      ∧ retrievalCount (perform_analysis o req).2 = 1
      ∧ generationCount (perform_analysis o req).2 = 1
      ∧ cacheWriteCount (perform_analysis o req).2 = 1 := by
  have h := perform_analysis_miss_trace o req chunks out hmiss hret hgen
  refine ⟨by rw [h], ?_, ?_, ?_⟩ <;> rw [h] <;> rfl

/-- Witness oracles for C3 and C4: empty cache, one retrieved fragment, and
a generator that replies with fixed non-JSON text. -/
def cMissOracles : Oracles :=
  { cacheGet := fun _ => none
    searchVector := fun _ => Except.ok ["MITRE T1.1: SMS abuse pattern"]
    generate := fun _ _ => Except.ok "not json" }

/-- Witness for C3 at concrete oracles and request. -/
theorem C3_cache_miss_effects_witness :
    retrievalCount (perform_analysis cMissOracles ⟨"com.example.app", ["INTERNET"], "log"⟩).2 = 1
      ∧ generationCount
          (perform_analysis cMissOracles ⟨"com.example.app", ["INTERNET"], "log"⟩).2 = 1
      ∧ cacheWriteCount
          (perform_analysis cMissOracles ⟨"com.example.app", ["INTERNET"], "log"⟩).2 = 1 :=
  (C3_cache_miss_effects cMissOracles ⟨"com.example.app", ["INTERNET"], "log"⟩
    ["MITRE T1.1: SMS abuse pattern"] "not json" rfl rfl rfl).2

/-- C4: on a cache miss the raw generation output is written to the cache
before it is parsed — when parsing fails, the call errors but the trace
still contains the cache write of the malformed raw output (the write is
not retracted). -/
theorem C4_write_before_parse (o : Oracles) (req : AndroguardAnalysis)
    (chunks : List String) (out : String) (e : PyException)
    (hmiss : o.cacheGet (cache_key req) = none)
    (hret : o.searchVector (specific_context req) = Except.ok chunks)
    (hgen : o.generate
      (_format_final_prompt _get_system_prompt (specific_context req) chunks) 512
      = Except.ok out)
    (hfail : model_validate_json out = Except.error e) :
    (perform_analysis o req).1 = Except.error e
      ∧ Event.cacheSetEv (cache_key req) out 3600 ∈ (perform_analysis o req).2
      ∧ (perform_analysis o req).2.getLast? = some (Event.cacheSetEv (cache_key req) out 3600)
      ∧ cacheWriteCount (perform_analysis o req).2 = 1 := by
  have h := perform_analysis_miss_trace o req chunks out hmiss hret hgen
  have hp := parse_and_return_error out e hfail
  refine ⟨?_, ?_, ?_, ?_⟩ <;> rw [h]
  · exact hp
  · simp
  · rfl
  · rfl

/-- Witness for C4 at concrete oracles and request. -/
theorem C4_write_before_parse_witness :
    (perform_analysis cMissOracles ⟨"com.example.app", [], "log"⟩).1
        = Except.error (PyException.validationError ValKind.jsonInvalid "not json")
      ∧ Event.cacheSetEv (cache_key ⟨"com.example.app", [], "log"⟩) "not json" 3600
          ∈ (perform_analysis cMissOracles ⟨"com.example.app", [], "log"⟩).2 :=
  ⟨(C4_write_before_parse cMissOracles ⟨"com.example.app", [], "log"⟩
      ["MITRE T1.1: SMS abuse pattern"] "not json"
      (PyException.validationError ValKind.jsonInvalid "not json")
      rfl rfl rfl (by decide)).1,
   (C4_write_before_parse cMissOracles ⟨"com.example.app", [], "log"⟩
      ["MITRE T1.1: SMS abuse pattern"] "not json"
      (PyException.validationError ValKind.jsonInvalid "not json")
      rfl rfl rfl (by decide)).2.1⟩

/-- C5: whenever the generation output fails to deserialize — malformed JSON
or a missing required field — `perform_analysis` fails with the pydantic
validation error carrying the offending output (whose rendering shows a
truncated excerpt), invokes generation exactly once (no retry), and never
returns a report.  The source's own `except json.JSONDecodeError` handler,
which would attach an explicit 200-character excerpt, can never fire because
`model_validate_json` raises `pydantic.ValidationError` instead. -/
theorem C5_parse_failure_no_partial_report (o : Oracles) (req : AndroguardAnalysis)
    (chunks : List String) (out : String) (e : PyException)
    (hmiss : o.cacheGet (cache_key req) = none)
    (hret : o.searchVector (specific_context req) = Except.ok chunks)
    (hgen : o.generate
      (_format_final_prompt _get_system_prompt (specific_context req) chunks) 512
      = Except.ok out)
    (hfail : model_validate_json out = Except.error e) :
    (∃ k, e = PyException.validationError k out
      ∧ (perform_analysis o req).1 = Except.error (PyException.validationError k out))
      ∧ generationCount (perform_analysis o req).2 = 1
      ∧ ∀ r : ThemisAIReport, (perform_analysis o req).1 ≠ Except.ok r := by
  have h := perform_analysis_miss_trace o req chunks out hmiss hret hgen
  have hp := parse_and_return_error out e hfail
  obtain ⟨k, hk⟩ := model_validate_json_error_shape out e hfail
  refine ⟨⟨k, hk, ?_⟩, ?_, ?_⟩
  · rw [h]
    simp only
    rw [hp, hk]
  · rw [h]
    rfl
  · intro r hr
    rw [h] at hr
    simp only at hr
    rw [hp] at hr
    exact Except.noConfusion hr

/-- Witness oracles for C5's missing-field case: generation replies with
valid JSON that omits every required field but one. -/
def c5MissingFieldOracles : Oracles :=
  { cacheGet := fun _ => none
    searchVector := fun _ => Except.ok []
    generate := fun _ _ => Except.ok "\x7b\"package_name\": \"a\"\x7d" }

/-- Witness for C5 covering both deserialization failure modes: malformed
JSON and a missing required field. -/
theorem C5_parse_failure_no_partial_report_witness :
    ((perform_analysis cMissOracles ⟨"a", [], "l"⟩).1
        = Except.error (PyException.validationError ValKind.jsonInvalid "not json")
      ∧ ∀ r : ThemisAIReport,
          (perform_analysis cMissOracles ⟨"a", [], "l"⟩).1 ≠ Except.ok r)
    ∧ ((perform_analysis c5MissingFieldOracles ⟨"a", [], "l"⟩).1
        = Except.error (PyException.validationError ValKind.schemaViolation
            "\x7b\"package_name\": \"a\"\x7d")
      ∧ ∀ r : ThemisAIReport,
          (perform_analysis c5MissingFieldOracles ⟨"a", [], "l"⟩).1 ≠ Except.ok r) := by
  have h1 := C5_parse_failure_no_partial_report cMissOracles ⟨"a", [], "l"⟩
    ["MITRE T1.1: SMS abuse pattern"] "not json"
    (PyException.validationError ValKind.jsonInvalid "not json") rfl rfl rfl (by decide)
  have h2 := C5_parse_failure_no_partial_report c5MissingFieldOracles ⟨"a", [], "l"⟩
    [] "\x7b\"package_name\": \"a\"\x7d"
    (PyException.validationError ValKind.schemaViolation "\x7b\"package_name\": \"a\"\x7d")
    rfl rfl rfl (by decide)
  obtain ⟨⟨k1, hk1, he1⟩, _, hnr1⟩ := h1
  obtain ⟨⟨k2, hk2, he2⟩, _, hnr2⟩ := h2
  have hk1' : k1 = ValKind.jsonInvalid := by
    cases k1 with
    | jsonInvalid => rfl
    | schemaViolation => exact absurd hk1 (by simp)
  have hk2' : k2 = ValKind.schemaViolation := by
    cases k2 with
    | schemaViolation => rfl
    | jsonInvalid => exact absurd hk2 (by simp)
  rw [hk1'] at he1
  rw [hk2'] at he2
  exact ⟨⟨he1, hnr1⟩, ⟨he2, hnr2⟩⟩

/-- C8: on a cache miss the coordinator queries the retrieval operation with
the specific context — which contains the package identifier and the full
indent-2 serialized request — exactly once, receives an ordered list of text
fragments, and renders them one per line (each prefixed `"  - "`) into the
generation prompt.  (`search_vector` itself is absent from the provided
sources and is modelled from the spec as an oracle returning text
fragments.) -/
theorem C8_retrieval_query_and_rendering (o : Oracles) (req : AndroguardAnalysis)
    (chunks : List String)
    (hmiss : o.cacheGet (cache_key req) = none)
    (hret : o.searchVector (specific_context req) = Except.ok chunks) :
    ((perform_analysis o req).2.filter
        (fun e => match e with | Event.searchVectorEv _ => true | _ => false))
      = [Event.searchVectorEv (specific_context req)]
      ∧ Event.generateEv
          (_format_final_prompt _get_system_prompt (specific_context req) chunks) 512
          ∈ (perform_analysis o req).2
      ∧ (∃ a b, specific_context req = a ++ req.package_name ++ b)
      ∧ (∃ a b, specific_context req = a ++ model_dump_json_indent2 req ++ b)
      ∧ (∃ a b, _format_final_prompt _get_system_prompt (specific_context req) chunks
          = a ++ String.intercalate "\n" (chunks.map (fun c => "  - " ++ c)) ++ b) := by
  have htrace : ∃ tail, (perform_analysis o req).2
      = [Event.cacheGetEv (cache_key req),
         Event.searchVectorEv (specific_context req),
         Event.generateEv
           (_format_final_prompt _get_system_prompt (specific_context req) chunks) 512]
        ++ tail ∧ (∀ q, Event.searchVectorEv q ∈ tail → False) := by
    cases hgen : o.generate
        (_format_final_prompt _get_system_prompt (specific_context req) chunks) 512 with
    | ok out =>
      refine ⟨[Event.cacheSetEv (cache_key req) out 3600], ?_, ?_⟩
      · have h := perform_analysis_miss_trace o req chunks out hmiss hret hgen
        rw [h]
        rfl
      · intro q hq
        simp at hq
    | error m =>
      refine ⟨[], ?_, ?_⟩
      · simp only [perform_analysis, perform_analysis_miss, hmiss, hret, hgen]
        simp
      · intro q hq
        simp at hq
  obtain ⟨tail, htr, htail⟩ := htrace
  refine ⟨?_, ?_, ?_, ?_, ?_⟩
  · rw [htr]
    rw [List.filter_append]
    have h2 : tail.filter
        (fun e => match e with | Event.searchVectorEv _ => true | _ => false) = [] := by
      rw [List.filter_eq_nil_iff]
      intro e he hev
      cases e with
      | searchVectorEv q => exact htail q he
      | cacheGetEv k => exact Bool.noConfusion hev
      | generateEv p m => exact Bool.noConfusion hev
      | cacheSetEv k v x => exact Bool.noConfusion hev
    rw [h2]
    rfl
  · rw [htr]
    simp
  · exact ⟨"\n        # CONTEXTO ESPECÍFICO DA APLICAÇÃO (ANDROGUARD)\n        Pacote: ",
      ".\n        Dados Analíticos Brutos (JSON):\n        "
        ++ model_dump_json_indent2 req ++ "\n        ",
      by simp [specific_context, String.append_assoc]⟩
  · exact ⟨"\n        # CONTEXTO ESPECÍFICO DA APLICAÇÃO (ANDROGUARD)\n        Pacote: "
        ++ req.package_name ++ ".\n        Dados Analíticos Brutos (JSON):\n        ",
      "\n        ",
      by simp [specific_context, String.append_assoc]⟩
  · exact ⟨final_prompt_pre _get_system_prompt,
      final_prompt_mid ++ specific_context req ++ final_prompt_post,
      by simp [_format_final_prompt, mitre_context_str, String.append_assoc]⟩

/-- Witness oracles for C8. -/
def c8Oracles : Oracles :=
  { cacheGet := fun _ => none
    searchVector := fun _ => Except.ok ["frag one", "frag two"]
    generate := fun _ _ => Except.ok "out" }

/-- Witness for C8 at concrete oracles and request. -/
theorem C8_retrieval_query_and_rendering_witness :
    ((perform_analysis c8Oracles ⟨"com.example.app", ["INTERNET"], "log"⟩).2.filter
        (fun e => match e with | Event.searchVectorEv _ => true | _ => false))
      = [Event.searchVectorEv (specific_context ⟨"com.example.app", ["INTERNET"], "log"⟩)]
      ∧ (∃ a b, specific_context ⟨"com.example.app", ["INTERNET"], "log"⟩
          = a ++ "com.example.app" ++ b) := by
  have h := C8_retrieval_query_and_rendering c8Oracles
    ⟨"com.example.app", ["INTERNET"], "log"⟩ ["frag one", "frag two"] rfl rfl
  exact ⟨h.1, h.2.2.1⟩

theorem lookupQ_bump (s : List (String × ℚ)) (k : String) (v : ℚ) (key : String) :
    lookupQ (bump s k v) key = lookupQ s key + (if key = k then v else 0) := by
  induction s with
  | nil =>
    simp only [bump, lookupQ]
    by_cases h : k = key
    · subst h
      simp
    · rw [if_neg h, if_neg (fun hh => h hh.symm)]
      simp
  | cons kv t ih =>
    simp only [bump]
    by_cases h1 : kv.1 = k
    · rw [if_pos h1]
      simp only [lookupQ]
      by_cases h2 : kv.1 = key
      · have hkk : key = k := by rw [← h2, h1]
        rw [if_pos h2, if_pos h2, if_pos hkk]
      · have hkk : ¬ key = k := by
          intro hh
          exact h2 (by rw [h1, hh])
        rw [if_neg h2, if_neg h2, if_neg hkk]
        simp
    · rw [if_neg h1]
      simp only [lookupQ]
      by_cases h2 : kv.1 = key
      · rw [if_pos h2, if_pos h2]
        have hkk : ¬ key = k := by
          intro hh
          exact h1 (by rw [h2, hh])
        rw [if_neg hkk]
        simp
      · rw [if_neg h2, if_neg h2, ih]

theorem lookupQ_addRrfAux (l : List OSHit) (s : List (String × ℚ)) (rank : Nat)
    (key : String) :
    lookupQ (addRrfAux s rank l) key = lookupQ s key + rrfContribution key rank l := by
  induction l generalizing s rank with
  | nil => simp [addRrfAux, rrfContribution]
  | cons h t ih =>
    simp only [addRrfAux, rrfContribution]
    cases hk : hitKey h with
    | none =>
      rw [ih]
      simp
    | some k2 =>
      rw [ih, lookupQ_bump]
      by_cases h2 : k2 = key
      · subst h2
        rw [if_pos (rfl : k2 = k2), if_pos (rfl : (some k2 : Option String) = some k2)]
        ring
      · have h2' : ¬ key = k2 := fun hh => h2 hh.symm
        have h2'' : ¬ ((some k2 : Option String) = some key) := by simp [h2]
        rw [if_neg h2', if_neg h2'']
        ring

theorem insortDesc_mem (x b : String × ℚ) (l : List (String × ℚ)) :
    b ∈ insortDesc x l ↔ b = x ∨ b ∈ l := by
  induction l with
  | nil => simp [insortDesc]
  | cons y ys ih =>
    simp only [insortDesc]
    by_cases h : y.2 ≤ x.2
    · simp [h]
    · simp only [if_neg h, List.mem_cons, ih]
      tauto

theorem insortDesc_pairwise (x : String × ℚ) (l : List (String × ℚ))
    (h : l.Pairwise (fun a b => b.2 ≤ a.2)) :
    (insortDesc x l).Pairwise (fun a b => b.2 ≤ a.2) := by
  induction l with
  | nil => simp [insortDesc]
  | cons y ys ih =>
    simp only [insortDesc]
    rcases List.pairwise_cons.mp h with ⟨hy, hys⟩
    by_cases hxy : y.2 ≤ x.2
    · rw [if_pos hxy]
      apply List.pairwise_cons.mpr
      refine ⟨?_, h⟩
      intro b hb
      rcases List.mem_cons.mp hb with hb1 | hb2
      · rw [hb1]
        exact hxy
      · exact le_trans (hy b hb2) hxy
    · rw [if_neg hxy]
      apply List.pairwise_cons.mpr
      refine ⟨?_, ih hys⟩
      intro b hb
      rcases (insortDesc_mem x b ys).mp hb with hb1 | hb2
      · rw [hb1]
        exact le_of_lt (lt_of_not_le hxy)
      · exact hy b hb2

theorem sortByScoreDesc_pairwise (l : List (String × ℚ)) :
    (sortByScoreDesc l).Pairwise (fun a b => b.2 ≤ a.2) := by
  induction l with
  | nil => simp [sortByScoreDesc]
  | cons x xs ih => exact insortDesc_pairwise x _ ih

/-- Witness oracles for C6: lexical hits A, B, C; vector hits B, D; re-fetch
returns each id as a found document with text `"t" ++ id`. -/
def c6Oracles : HybridOracles :=
  { bm25Search := fun _ _ => [⟨some "A"⟩, ⟨some "B"⟩, ⟨some "C"⟩]
    encodeOne := fun _ => []
    knnSearch := fun _ _ => [⟨some "B"⟩, ⟨some "D"⟩]
    mget := fun ids => ids.map (fun i =>
      { found := true, oid := some i, src_id := some i, text := "t" ++ i, meta := none }) }

/-- C6: the hybrid search's fused score of every id is the sum of
`1 / (60 + rank)` over its 1-based positions in the two hit lists; the
merged list is sorted by fused score descending; on the concrete example
(lexical `[A, B, C]`, vector `[B, D]`) the fused scores are
`B = 1/61 + 1/62`, `A = 1/61`, `D = 1/62`, `C = 1/63` and the returned
records come in order `[B, A, D, C]` annotated with those scores; and when
both underlying searches return empty, the result is empty. -/
theorem C6_rrf_merge :
    (∀ (l1 l2 : List OSHit) (key : String),
      lookupQ (add_rrf (add_rrf [] l1) l2) key
        = rrfContribution key 1 l1 + rrfContribution key 1 l2)
    ∧ (∀ scores : List (String × ℚ),
        (sortByScoreDesc scores).Pairwise (fun a b => b.2 ≤ a.2))
    ∧ search_hybrid_slim c6Oracles "q" 5
        = [⟨some "B", 1/61 + 1/62, "tB", none⟩,
           ⟨some "A", 1/61, "tA", none⟩,
           ⟨some "D", 1/62, "tD", none⟩,
           ⟨some "C", 1/63, "tC", none⟩]
    ∧ (∀ (o : HybridOracles) (q : String) (k : Nat),
        o.bm25Search q k = [] → o.knnSearch (o.encodeOne q) k = [] →
        search_hybrid_slim o q k = []) := by
  refine ⟨?_, ?_, ?_, ?_⟩
  · intro l1 l2 key
    simp only [add_rrf, lookupQ_addRrfAux]
    simp [lookupQ]
  · exact sortByScoreDesc_pairwise
  · norm_num +decide [search_hybrid_slim, c6Oracles, add_rrf, addRrfAux, bump, hitKey,
      sortByScoreDesc, insortDesc, lookupScoreOpt, lookupQ, pyOr, List.filterMap]
  · intro o q k h1 h2
    simp [search_hybrid_slim, h1, h2, add_rrf, addRrfAux]

/-- Witness for C6's universally quantified parts at concrete inputs. -/
theorem C6_rrf_merge_witness :
    lookupQ (add_rrf (add_rrf [] [⟨some "A"⟩]) [⟨some "A"⟩]) "A"
        = rrfContribution "A" 1 [⟨some "A"⟩] + rrfContribution "A" 1 [⟨some "A"⟩]
      ∧ search_hybrid_slim
          { bm25Search := fun _ _ => []
            encodeOne := fun _ => []
            knnSearch := fun _ _ => []
            mget := fun _ => [] } "q" 5 = [] :=
  ⟨C6_rrf_merge.1 [⟨some "A"⟩] [⟨some "A"⟩] "A",
   C6_rrf_merge.2.2.2 _ "q" 5 rfl rfl⟩

/-- Concrete `LlamaService` state for the C7 counterexample. -/
def c7Svc : LlamaService :=
  { llama_cpp := "/app/llama.cpp/build/bin/llama-cli"
    model_path := "/models/model.gguf"
    default_ngl := "0"
    default_extra_args := [] }

/-- A subprocess that exceeds its wall-clock timeout. -/
def c7RunTimeout : List String → ProcOutcome := fun _ => ProcOutcome.timedOut

/-- C7 counterexample: on a timed-out subprocess the synchronous variant
propagates `subprocess.TimeoutExpired` (carrying the command and timeout)
while the asynchronous variant raises `RuntimeError` with a
"LLaMA timeout" message — different error kind and payload, refuting the
claim that the two variants classify errors identically. -/
theorem C7_counterexample_timeout_classification :
    generate_response c7Svc c7RunTimeout "p" 5 none (some 1)
        = Except.error (LlamaError.timeoutExpired
            (_build_command c7Svc "p" 5 none) (some 1))
      ∧ generate_response_async c7Svc c7RunTimeout "p" 5 none (some 1)
          = Except.error (LlamaError.runtimeError
              ("LLaMA timeout.\ncmd: " ++ shlexJoin (_build_command c7Svc "p" 5 none)))
      ∧ generate_response c7Svc c7RunTimeout "p" 5 none (some 1)
          ≠ generate_response_async c7Svc c7RunTimeout "p" 5 none (some 1) :=
  ⟨rfl, rfl, by decide⟩

/-- C7 (amended): both variants build the same command line and behave
identically whenever the subprocess runs to completion — the same
`RuntimeError` kind and payload on a non-zero exit, the same
whitespace-trimmed stdout on success; on timeout both fail, but with
different errors: the synchronous variant propagates
`subprocess.TimeoutExpired` while the asynchronous one raises
`RuntimeError` naming the joined command. -/
theorem C7_sync_async_equivalence_amended :
    (∀ (svc : LlamaService) (run : List String → ProcOutcome) (prompt : String)
      (max_tokens : Nat) (extra_args : Option (List String)) (timeout : Option ℚ)
      (rc : Int) (out err : String),
      run (_build_command svc prompt max_tokens extra_args)
          = ProcOutcome.completed rc out err →
      generate_response svc run prompt max_tokens extra_args timeout
        = generate_response_async svc run prompt max_tokens extra_args timeout)
    ∧ (∀ (svc : LlamaService) (run : List String → ProcOutcome) (prompt : String)
      (max_tokens : Nat) (extra_args : Option (List String)) (timeout : Option ℚ),
      run (_build_command svc prompt max_tokens extra_args) = ProcOutcome.timedOut →
      generate_response svc run prompt max_tokens extra_args timeout
          = Except.error (LlamaError.timeoutExpired
              (_build_command svc prompt max_tokens extra_args) timeout)
        ∧ generate_response_async svc run prompt max_tokens extra_args timeout
          = Except.error (LlamaError.runtimeError
              ("LLaMA timeout.\ncmd: "
                ++ shlexJoin (_build_command svc prompt max_tokens extra_args)))) := by
  constructor
  · intro svc run prompt max_tokens extra_args timeout rc out err hrun
    simp only [generate_response, generate_response_async]
    rw [hrun]
  · intro svc run prompt max_tokens extra_args timeout hrun
    constructor
    · simp only [generate_response]
      rw [hrun]
    · simp only [generate_response_async]
      rw [hrun]

/-- A subprocess that completes successfully with padded stdout. -/
def c7RunOk : List String → ProcOutcome := fun _ => ProcOutcome.completed 0 " out \n" ""

/-- Witness for the amended C7 at concrete inputs: agreement on a completed
process, and the two distinct failures on a timed-out one. -/
theorem C7_sync_async_equivalence_amended_witness :
    generate_response c7Svc c7RunOk "p" 5 none none
        = generate_response_async c7Svc c7RunOk "p" 5 none none
      ∧ generate_response c7Svc c7RunTimeout "q" 7 none none
          = Except.error (LlamaError.timeoutExpired
              (_build_command c7Svc "q" 7 none) none)
      ∧ generate_response_async c7Svc c7RunTimeout "q" 7 none none
          = Except.error (LlamaError.runtimeError
              ("LLaMA timeout.\ncmd: " ++ shlexJoin (_build_command c7Svc "q" 7 none))) :=
  ⟨C7_sync_async_equivalence_amended.1 c7Svc c7RunOk "p" 5 none none 0 " out \n" "" rfl,
   (C7_sync_async_equivalence_amended.2 c7Svc c7RunTimeout "q" 7 none none rfl).1,
   (C7_sync_async_equivalence_amended.2 c7Svc c7RunTimeout "q" 7 none none rfl).2⟩
